import Mathlib

/-!
Shallow embedding of the resilient request layer of the product-scraper
repository: the retry/backoff state machine of `StealthScraper.request`
(`stealth_scraper.py`) and the proxy pool of `ProxyManager`
(`proxy_manager.py`).  Randomness (chosen user agent, chosen language,
random waits), wall-clock time and the network are passed in as explicit
parameters; machine state is passed explicitly.
-/

namespace Scraper

/-- An HTTP response as seen by `StealthScraper._handle_error`: its status
code and the value of its `Retry-After` header, when present. -/
structure HttpResponse where
  status : Nat
  retryAfter : Option String
  deriving Repr, DecidableEq

/-- The network's outcome for one request attempt: either a
`requests.exceptions.RequestException` with a message, or a response. -/
inductive AttemptOutcome where
  | exc (msg : String)
  | resp (r : HttpResponse)
  deriving Repr, DecidableEq

/-- A sleep performed during a logical request: the randomized throttling
delay of `_throttle_requests`, the exponential backoff
`min(2 ** attempt, 60)` after a network exception, or the rate-limit wait
of `_handle_error` on a 429/503. -/
inductive SleepEvent where
  | throttle
  | backoff (seconds : Nat)
  | rateLimit (seconds : Nat)
  deriving Repr, DecidableEq

/-- Python's `int(s)` on a string, as used on the `Retry-After` header:
surrounding whitespace is stripped and the digits are parsed; a
non-numeric value raises `ValueError` (here: `none`). -/
def parseIntOpt (s : String) : Option Nat :=
  let t := ((s.toList.dropWhile Char.isWhitespace).reverse.dropWhile
    Char.isWhitespace).reverse
  if t ≠ [] ∧ t.all Char.isDigit then
    some (t.foldl (fun acc c => acc * 10 + (c.toNat - 48)) 0)
  else none

/-- `StealthScraper._handle_error` (stealth_scraper.py lines 154-179).
Returns `(should_retry, error_msg, sleeps performed)`, or an uncaught
`ValueError` when a 429/503 response carries a non-numeric `Retry-After`
header.  `randWait` stands for `random.randint(30, 120)`. -/
def handle_error (maxRetries : Nat) (response : Option HttpResponse)
    (attempt : Nat) (randWait : Nat) :
    Except String (Bool × String × List SleepEvent) :=
  match response with
  | none => .ok (true, "No response received", [])
  | some r =>
    if r.status = 200 then .ok (false, "", [])
    else if r.status = 429 ∨ r.status = 503 then
      match r.retryAfter with
      | none => .ok (true, "Rate limited", [.rateLimit randWait])
      | some v =>
        match parseIntOpt v with
        | some n => .ok (true, "Rate limited", [.rateLimit n])
        | none => .error ("invalid literal for int with base 10: " ++ v)
    else if r.status ≥ 500 then
      .ok (decide (attempt < maxRetries - 1), "Server error: " ++ toString r.status, [])
    else if r.status = 403 ∨ r.status = 404 then
      .ok (false, "Access denied or page not found: " ++ toString r.status, [])
    else
      .ok (decide (attempt < maxRetries - 1), "HTTP " ++ toString r.status, [])

/-- The observable result of one `StealthScraper.request` call: the value
returned to the caller (`some response` or `None`), the number of network
attempts performed, the sleeps performed in order, and the final
`request_count` of the client. -/
structure ReqResult where
  result : Option HttpResponse
  attempts : Nat
  trace : List SleepEvent
  requestCount : Nat
  deriving Repr, DecidableEq

/-- The retry loop of `StealthScraper.request` (stealth_scraper.py lines
226-271).  `env i` is the network outcome of attempt `i`, `randW i` the
`random.randint(30, 120)` draw available to attempt `i`; `attempt` is the
current attempt index, `fuel` the number of loop iterations left,
`rc` the client's `request_count` and `trace` the sleeps so far.
An `Except.error` is a Python exception escaping `request`. -/
def requestLoop (maxRetries : Nat) (env : Nat → AttemptOutcome)
    (randW : Nat → Nat) :
    Nat → Nat → Nat → List SleepEvent → Except String ReqResult
  | attempt, 0, rc, trace => .ok ⟨none, attempt, trace, rc⟩
  | attempt, fuel + 1, rc, trace =>
    -- `if attempt > 0 or self.request_count > 0: self._throttle_requests()`
    let rc1 := if attempt > 0 ∨ rc > 0 then rc + 1 else rc
    let trace1 := if attempt > 0 ∨ rc > 0 then trace ++ [.throttle] else trace
    match env attempt with
    | .exc _ =>
      if attempt = maxRetries - 1 then .ok ⟨none, attempt + 1, trace1, rc1⟩
      else
        requestLoop maxRetries env randW (attempt + 1) fuel rc1
          (trace1 ++ [.backoff (min (2 ^ attempt) 60)])
    | .resp r =>
      match handle_error maxRetries (some r) attempt (randW attempt) with
      | .error e => .error e
      | .ok (shouldRetry, _msg, sleeps) =>
        if shouldRetry then
          requestLoop maxRetries env randW (attempt + 1) fuel rc1 (trace1 ++ sleeps)
        else .ok ⟨some r, attempt + 1, trace1 ++ sleeps, rc1⟩

/-- `StealthScraper.request` (stealth_scraper.py lines 207-271), with the
client's `max_retries` and incoming `request_count` explicit. -/
def request (maxRetries : Nat) (env : Nat → AttemptOutcome)
    (randW : Nat → Nat) (rc0 : Nat) : Except String ReqResult :=
  requestLoop maxRetries env randW 0 maxRetries rc0 []

/-- The exponential-backoff sleeps of a trace, in order. -/
def backoffsOf (trace : List SleepEvent) : List Nat :=
  trace.filterMap (fun e =>
    match e with
    | .backoff n => some n
    | _ => none)

/-- A header dictionary: Python `dict` keyed by header name. -/
abbrev HeaderMap : Type := String → Option String

/-- `StealthScraper._get_random_headers` (stealth_scraper.py lines
105-122), with the chosen `Accept-Language` (`random.choice` over
`ACCEPT_LANGUAGES`) and the chosen `User-Agent` as parameters. -/
def get_random_headers (lang ua : String) : HeaderMap := fun k =>
  if k = "Accept" then
    some "text/html,application/xhtml+xml,application/xml;q=0.9,image/webp,*/*;q=0.8"
  else if k = "Accept-Encoding" then some "gzip, deflate, br"
  else if k = "Accept-Language" then some lang
  else if k = "Cache-Control" then some "no-cache"
  else if k = "Connection" then some "keep-alive"
  else if k = "Pragma" then some "no-cache"
  else if k = "Referer" then some "https://www.google.com/"
  else if k = "Sec-Fetch-Dest" then some "document"
  else if k = "Sec-Fetch-Mode" then some "navigate"
  else if k = "Sec-Fetch-Site" then some "none"
  else if k = "Sec-Fetch-User" then some "?1"
  else if k = "Upgrade-Insecure-Requests" then some "1"
  else if k = "User-Agent" then some ua
  else none

/-- Python `base.update(overlay)`: on a key present in both, the overlay's
value wins. -/
def dictUpdate (base overlay : HeaderMap) : HeaderMap := fun k =>
  match overlay k with
  | some v => some v
  | none => base k

/-- The header set actually sent by an attempt of `StealthScraper.request`
(stealth_scraper.py lines 232-235): `headers = kwargs.pop('headers', {});
headers.update(self._get_random_headers())`. -/
def sentHeaders (callerHeaders : HeaderMap) (lang ua : String) : HeaderMap :=
  dictUpdate callerHeaders (get_random_headers lang ua)

/-- An attempt outcome counting as a success for `request`: a response
with HTTP status 200. -/
def isSuccessOutcome : AttemptOutcome → Bool
  | .resp r => r.status = 200
  | .exc _ => false

/-- An attempt outcome that cannot make `request` raise: anything except
a 429/503 response carrying a `Retry-After` header that `int()` rejects. -/
def safeOutcome : AttemptOutcome → Bool
  | .exc _ => true
  | .resp r =>
    !((r.status = 429 || r.status = 503) &&
      (match r.retryAfter with
       | some v => (parseIntOpt v).isNone
       | none => false))

/-- An attempt outcome that `request` always retries, whatever attempts
remain: a network exception, or a 429/503 rate limit whose `Retry-After`
header is absent or parseable. -/
def retryableOutcome : AttemptOutcome → Bool
  | .exc _ => true
  | .resp r =>
    (r.status = 429 || r.status = 503) &&
    (match r.retryAfter with
     | some v => (parseIntOpt v).isSome
     | none => true)

end Scraper

namespace Pool

/-- `ProxyStats` (proxy_manager.py lines 15-24).  Times are rationals
standing for Python floats of seconds. -/
structure ProxyStats where
  success_count : Nat
  failure_count : Nat
  total_response_time : ℚ
  last_used : ℚ
  last_failure : ℚ
  consecutive_failures : Nat
  is_active : Bool
  deriving Repr, DecidableEq

/-- `ProxyStats()`: the dataclass defaults. -/
def ProxyStats.init : ProxyStats :=
  ⟨0, 0, 0, 0, 0, 0, true⟩

/-- The mutable state of a `ProxyManager` (proxy_manager.py lines 53-70):
the `proxies` list, the `proxy_stats` dict (as an association list), and
the `active_proxies` / `banned_proxies` sets (as duplicate-free lists). -/
structure PoolState where
  proxies : List String
  stats : List (String × ProxyStats)
  active : List String
  banned : List String
  deriving Repr, DecidableEq

/-- `self.proxy_stats[p]` lookup: `some` iff `p in self.proxy_stats`. -/
def findStats (s : PoolState) (p : String) : Option ProxyStats :=
  (s.stats.find? (fun e => e.1 = p)).map (fun e => e.2)

/-- Overwrite the stats stored under key `p` (Python dict item mutation). -/
def setStats (l : List (String × ProxyStats)) (p : String) (st : ProxyStats) :
    List (String × ProxyStats) :=
  l.map (fun e => if e.1 = p then (p, st) else e)

/-- Python `set.add`. -/
def sadd (l : List String) (p : String) : List String :=
  if p ∈ l then l else l ++ [p]

/-- Python `set.remove` / `set.discard` (callers guard membership). -/
def srem (l : List String) (p : String) : List String :=
  l.filter (fun q => q ≠ p)

/-- `ProxyManager.__init__` state for a given proxy list (proxy_manager.py
lines 62-70): every listed proxy gets fresh stats and starts active. -/
def initPool (proxyList : List String) : PoolState :=
  { proxies := proxyList
    stats := proxyList.foldl (fun acc p =>
      if (acc.find? (fun e => e.1 = p)).isSome then setStats acc p ProxyStats.init
      else acc ++ [(p, ProxyStats.init)]) []
    active := proxyList.foldl sadd []
    banned := [] }

/-- `ProxyManager.report_success` (proxy_manager.py lines 183-205).
`now` stands for `time.time()`. -/
def report_success (p : String) (responseTime now : ℚ) (s : PoolState) :
    PoolState :=
  match findStats s p with
  | none => s
  | some st =>
    let st' : ProxyStats :=
      { st with
        success_count := st.success_count + 1
        total_response_time := st.total_response_time + responseTime
        consecutive_failures := 0
        is_active := true
        last_used := now }
    let s' := { s with stats := setStats s.stats p st' }
    if p ∈ s.banned then
      { s' with banned := srem s'.banned p, active := sadd s'.active p }
    else s'

/-- `ProxyManager.report_failure` (proxy_manager.py lines 207-232).
`maxFailures` is the manager's `max_failures`; `now` is `time.time()`. -/
def report_failure (maxFailures : Nat) (p : String) (now : ℚ) (s : PoolState) :
    PoolState :=
  match findStats s p with
  | none => s
  | some st =>
    let st1 : ProxyStats :=
      { st with
        failure_count := st.failure_count + 1
        consecutive_failures := st.consecutive_failures + 1
        last_failure := now }
    if st1.consecutive_failures ≥ maxFailures then
      { s with
        stats := setStats s.stats p { st1 with is_active := false }
        active := srem s.active p
        banned := sadd s.banned p }
    else
      { s with stats := setStats s.stats p st1 }

/-- The network outcome of one health probe in
`ProxyManager._check_proxy_health`: a 200 response measured at
`rt` seconds, a non-200 status, or an exception. -/
inductive HCOutcome where
  | ok (rt : ℚ)
  | badStatus (code : Nat)
  | exc (msg : String)
  deriving Repr, DecidableEq

/-- `ProxyManager._check_proxy_health` (proxy_manager.py lines 234-279).
`now` is `time.time()` and `interval` the `health_check_interval`. -/
def check_proxy_health (maxFailures : Nat) (p : String) (now interval : ℚ)
    (hc : HCOutcome) (s : PoolState) : Bool × PoolState :=
  match findStats s p with
  | none => (false, s)
  | some st =>
    if now - st.last_used < interval then (st.is_active, s)
    else
      match hc with
      | .ok rt => (true, report_success p rt now s)
      | .badStatus _ => (false, report_failure maxFailures p now s)
      | .exc _ => (false, report_failure maxFailures p now s)

/-- Python's `str.strip()` with no arguments: drop leading and trailing
whitespace. -/
def pyStrip (s : String) : String :=
  String.mk (((s.toList.dropWhile Char.isWhitespace).reverse.dropWhile
    Char.isWhitespace).reverse)

/-- The scheme check of `ProxyManager.add_proxy` (proxy_manager.py line
316): `proxy_url.startswith(('http://', 'https://', 'socks4://',
'socks5://'))`. -/
def hasScheme (q : String) : Bool :=
  "http://".toList.isPrefixOf q.toList || "https://".toList.isPrefixOf q.toList ||
    "socks4://".toList.isPrefixOf q.toList || "socks5://".toList.isPrefixOf q.toList

/-- The URL normalization performed by `ProxyManager.add_proxy`
(proxy_manager.py lines 309-317): strip, then prepend `http://` when no
scheme is present. -/
def normalizeProxy (p : String) : String :=
  if hasScheme (pyStrip p) then pyStrip p else "http://" ++ pyStrip p

/-- The adding step of `ProxyManager.add_proxy` (proxy_manager.py lines
306-326), up to but excluding the initial health check: `none` when the
call returns `False` (empty input or duplicate), otherwise the normalized
URL and the state with fresh zeroed stats registered and active. -/
def addProxyCore (p : String) (s : PoolState) :
    Option (String × PoolState) :=
  if p = "" then none
  else if pyStrip p = "" then none
  else
    let n := normalizeProxy p
    if (findStats s n).isSome then none
    else
      some (n,
        { s with
          proxies := s.proxies ++ [n]
          stats := s.stats ++ [(n, ProxyStats.init)]
          active := sadd s.active n })

/-- `ProxyManager.add_proxy` (proxy_manager.py lines 296-331), including
the initial `_check_proxy_health` on the newly added proxy. -/
def add_proxy (maxFailures : Nat) (p : String) (now interval : ℚ)
    (hc : HCOutcome) (s : PoolState) : Bool × PoolState :=
  match addProxyCore p s with
  | none => (false, s)
  | some (n, s') => (true, (check_proxy_health maxFailures n now interval hc s').2)

/-- `ProxyManager.remove_proxy` (proxy_manager.py lines 333-357). -/
def remove_proxy (p : String) (s : PoolState) : Bool × PoolState :=
  if (findStats s p).isSome then
    (true,
      { proxies := if p ∈ s.proxies then s.proxies.erase p else s.proxies
        stats := s.stats.filter (fun e => e.1 ≠ p)
        active := srem s.active p
        banned := srem s.banned p })
  else (false, s)

/-- The derived average response time used by the `fastest` strategy and
`get_stats` (proxy_manager.py lines 140-143):
`total_response_time / max(1, success_count)`. -/
def avgResponseTime (st : ProxyStats) : ℚ :=
  st.total_response_time / (max 1 st.success_count : ℕ)

/-- The sort key of the `fastest` strategy for an endpoint of the pool. -/
def avgOf (s : PoolState) (p : String) : ℚ :=
  match findStats s p with
  | some st => avgResponseTime st
  | none => 0

/-- The `available_proxies` list built by `ProxyManager.get_proxy`
(proxy_manager.py lines 110-120), with every endpoint's health check not
due: the active endpoints whose stats carry `is_active`.  The order of
`s.active` stands for the set's iteration order. -/
def availableProxies (s : PoolState) : List String :=
  s.active.filter (fun p =>
    match findStats s p with
    | some st => st.is_active
    | none => false)

/-- `sorted(available, key=avg)[0]` of the `fastest` strategy
(proxy_manager.py lines 136-145): the head of a stable sort by key, i.e.
the first element attaining the minimal average response time. -/
def selectFastest (s : PoolState) : List String → Option String
  | [] => none
  | p :: rest =>
    some (rest.foldl (fun best q => if avgOf s q < avgOf s best then q else best) p)

/-- `ProxyManager.get_proxy(strategy='fastest')` restricted to its
selection decision, with no endpoint due for a health check. -/
def get_proxy_fastest (s : PoolState) : Option String :=
  selectFastest s (availableProxies s)

/-- One pool mutation, in the vocabulary of the spec: register,
deregister, report success/failure, health check. -/
inductive PoolOp where
  | success (p : String) (rt now : ℚ)
  | failure (p : String) (now : ℚ)
  | register (p : String) (now interval : ℚ) (hc : HCOutcome)
  | deregister (p : String)
  | healthCheck (p : String) (now interval : ℚ) (hc : HCOutcome)
  deriving Repr

/-- Apply one pool operation to the state. -/
def applyOp (maxFailures : Nat) (s : PoolState) : PoolOp → PoolState
  | .success p rt now => report_success p rt now s
  | .failure p now => report_failure maxFailures p now s
  | .register p now interval hc => (add_proxy maxFailures p now interval hc s).2
  | .deregister p => (remove_proxy p s).2
  | .healthCheck p now interval hc => (check_proxy_health maxFailures p now interval hc s).2

/-- Apply a sequence of pool operations in order. -/
def applyOps (maxFailures : Nat) (s : PoolState) (ops : List PoolOp) : PoolState :=
  ops.foldl (applyOp maxFailures) s

/-- The pool invariant of the spec: `active` and `banned` are disjoint,
their union is exactly the set of endpoints with stats, and a stats
entry's `is_active` flag is false precisely on the banned set. -/
def Inv (s : PoolState) : Prop :=
  (∀ p ∈ s.active, p ∉ s.banned) ∧
  (∀ e ∈ s.stats, e.1 ∈ s.active ∨ e.1 ∈ s.banned) ∧
  (∀ p ∈ s.active, (findStats s p).isSome) ∧
  (∀ p ∈ s.banned, (findStats s p).isSome) ∧
  (∀ e ∈ s.stats, e.2.is_active = false ↔ e.1 ∈ s.banned)

instance (s : PoolState) : Decidable (Inv s) := by
  unfold Inv
  infer_instance

/-- Endpoint A of the spec's `fastest` example: 10 successes totalling
20 seconds, average 2 seconds. -/
def statsA : ProxyStats :=
  { ProxyStats.init with success_count := 10, total_response_time := 20 }

/-- Endpoint B of the spec's `fastest` example: 5 successes totalling
5 seconds, average 1 second. -/
def statsB : ProxyStats :=
  { ProxyStats.init with success_count := 5, total_response_time := 5 }

/-- A pool holding the spec's endpoints A and B, iterated A first. -/
def poolAB : PoolState :=
  ⟨["A", "B"], [("A", statsA), ("B", statsB)], ["A", "B"], []⟩

/-- A pool holding the spec's endpoints A and B, iterated B first. -/
def poolBA : PoolState :=
  ⟨["B", "A"], [("B", statsB), ("A", statsA)], ["B", "A"], []⟩

/-- Stats of an endpoint banned after three consecutive failures. -/
def bannedStats : ProxyStats :=
  { ProxyStats.init with
    failure_count := 3, consecutive_failures := 3, is_active := false }

/-- A pool whose single endpoint is banned. -/
def bannedPool : PoolState :=
  ⟨["http://a:1"], [("http://a:1", bannedStats)], [], ["http://a:1"]⟩

end Pool

/-! ### Helper lemmas about the pool's set and dictionary primitives -/

namespace Pool

theorem mem_sadd {l : List String} {p q : String} :
    q ∈ sadd l p ↔ q ∈ l ∨ q = p := by
  unfold sadd
  by_cases h : p ∈ l
  · rw [if_pos h]
    constructor
    · exact Or.inl
    · rintro (hq | rfl)
      · exact hq
      · exact h
  · rw [if_neg h]
    simp [List.mem_append]

theorem mem_srem {l : List String} {p q : String} :
    q ∈ srem l p ↔ q ∈ l ∧ q ≠ p := by
  simp [srem, List.mem_filter]

theorem self_not_mem_srem {l : List String} {p : String} : p ∉ srem l p := by
  simp [mem_srem]

theorem find?_setStats_isSome (l : List (String × ProxyStats)) (p q : String)
    (st : ProxyStats) :
    ((setStats l p st).find? (fun e => e.1 = q)).isSome
      = (l.find? (fun e => e.1 = q)).isSome := by
  induction l with
  | nil => rfl
  | cons e t ih =>
    show (((if e.1 = p then (p, st) else e) :: setStats t p st).find?
      (fun e => e.1 = q)).isSome = _
    by_cases hep : e.1 = p
    · rw [if_pos hep]
      by_cases hq : e.1 = q
      · rw [List.find?_cons_of_pos _ (by simp [hep ▸ hq]),
          List.find?_cons_of_pos _ (by simp [hq])]
        rfl
      · rw [List.find?_cons_of_neg _ (by simp [hep ▸ hq]),
          List.find?_cons_of_neg _ (by simp [hq])]
        exact ih
    · rw [if_neg hep]
      by_cases hq : e.1 = q
      · rw [List.find?_cons_of_pos _ (by simp [hq]),
          List.find?_cons_of_pos _ (by simp [hq])]
      · rw [List.find?_cons_of_neg _ (by simp [hq]),
          List.find?_cons_of_neg _ (by simp [hq])]
        exact ih

theorem find?_setStats_self {l : List (String × ProxyStats)} {p : String}
    (st : ProxyStats) (h : (l.find? (fun e => e.1 = p)).isSome) :
    (setStats l p st).find? (fun e => e.1 = p) = some (p, st) := by
  induction l with
  | nil => simp [List.find?] at h
  | cons e t ih =>
    show ((if e.1 = p then (p, st) else e) :: setStats t p st).find?
      (fun e => e.1 = p) = some (p, st)
    by_cases hep : e.1 = p
    · rw [if_pos hep, List.find?_cons_of_pos _ (by simp)]
    · rw [if_neg hep, List.find?_cons_of_neg _ (by simp [hep])]
      apply ih
      rw [List.find?_cons_of_neg _ (by simp [hep])] at h
      exact h

theorem find?_setStats_ne {l : List (String × ProxyStats)} {p q : String}
    (st : ProxyStats) (h : q ≠ p) :
    (setStats l p st).find? (fun e => e.1 = q) = l.find? (fun e => e.1 = q) := by
  induction l with
  | nil => rfl
  | cons e t ih =>
    show ((if e.1 = p then (p, st) else e) :: setStats t p st).find?
      (fun e => e.1 = q) = _
    by_cases hep : e.1 = p
    · have hq : ¬ e.1 = q := by
        rw [hep]
        exact fun hpq => h hpq.symm
      rw [if_pos hep, List.find?_cons_of_neg _ (by simp [h.symm ∘ Eq.symm]; exact fun hpq => h hpq.symm),
        List.find?_cons_of_neg _ (by simp [hq])]
      exact ih
    · by_cases hq : e.1 = q
      · rw [if_neg hep, List.find?_cons_of_pos _ (by simp [hq]),
          List.find?_cons_of_pos _ (by simp [hq])]
      · rw [if_neg hep, List.find?_cons_of_neg _ (by simp [hq]),
          List.find?_cons_of_neg _ (by simp [hq])]
        exact ih

theorem mem_setStats {l : List (String × ProxyStats)} {p : String}
    {st : ProxyStats} {e : String × ProxyStats} (h : e ∈ setStats l p st) :
    (e.1 = p ∧ e.2 = st) ∨ (e ∈ l ∧ e.1 ≠ p) := by
  unfold setStats at h
  obtain ⟨a, ha, hae⟩ := List.mem_map.mp h
  by_cases hap : a.1 = p
  · rw [if_pos hap] at hae
    left
    rw [← hae]
    exact ⟨rfl, rfl⟩
  · rw [if_neg hap] at hae
    right
    rw [← hae]
    exact ⟨ha, hap⟩

theorem find?_filter_key_ne {l : List (String × ProxyStats)} {p q : String}
    (h : q ≠ p) :
    (l.filter (fun e => e.1 ≠ p)).find? (fun e => e.1 = q)
      = l.find? (fun e => e.1 = q) := by
  induction l with
  | nil => rfl
  | cons e t ih =>
    by_cases hep : e.1 = p
    · have hq : ¬ e.1 = q := fun hqq => h (hqq ▸ hep)
      rw [List.filter_cons_of_neg (by simp [hep]),
        List.find?_cons_of_neg _ (by simp [hq]), ih]
    · rw [List.filter_cons_of_pos (by simp [hep])]
      by_cases hq : e.1 = q
      · rw [List.find?_cons_of_pos _ (by simp [hq]),
          List.find?_cons_of_pos _ (by simp [hq])]
      · rw [List.find?_cons_of_neg _ (by simp [hq]),
          List.find?_cons_of_neg _ (by simp [hq]), ih]

theorem findStats_isSome_iff (s : PoolState) (q : String) :
    (findStats s q).isSome = (s.stats.find? (fun e => e.1 = q)).isSome := by
  unfold findStats
  cases s.stats.find? (fun e => e.1 = q) <;> rfl

/-- A successfully looked-up endpoint corresponds to an entry of the
stats list keyed by it. -/
theorem entry_of_findStats {s : PoolState} {p : String} {st : ProxyStats}
    (hf : findStats s p = some st) :
    ∃ e ∈ s.stats, e.1 = p ∧ e.2 = st := by
  unfold findStats at hf
  cases hfind : s.stats.find? (fun e => e.1 = p) with
  | none => rw [hfind] at hf; simp at hf
  | some e =>
    rw [hfind] at hf
    simp only [Option.map_some'] at hf
    refine ⟨e, List.mem_of_find?_eq_some hfind, ?_, Option.some_injective _ hf⟩
    have := List.find?_some hfind
    simpa using this

theorem find?_isSome_of_findStats {s : PoolState} {p : String} {st : ProxyStats}
    (hf : findStats s p = some st) :
    (s.stats.find? (fun e => e.1 = p)).isSome := by
  unfold findStats at hf
  cases h : s.stats.find? (fun e => e.1 = p) with
  | none => rw [h] at hf; simp at hf
  | some e => simp

theorem findStats_of_stats_set {s t : PoolState} {p : String} {st st' : ProxyStats}
    (ht : t.stats = setStats s.stats p st') (hf : findStats s p = some st) :
    findStats t p = some st' := by
  unfold findStats
  rw [ht, find?_setStats_self st' (find?_isSome_of_findStats hf)]
  rfl

theorem findStats_of_stats_set_ne {s t : PoolState} {p q : String} {st' : ProxyStats}
    (ht : t.stats = setStats s.stats p st') (hq : q ≠ p) :
    findStats t q = findStats s q := by
  unfold findStats
  rw [ht, find?_setStats_ne st' hq]

/-- `report_success` on a banned registered endpoint: the unban branch. -/
theorem report_success_eq_of_banned {s : PoolState} {p : String} {st : ProxyStats}
    (rt now : ℚ) (hf : findStats s p = some st) (hb : p ∈ s.banned) :
    report_success p rt now s =
      { s with
        stats := setStats s.stats p
          { st with
            success_count := st.success_count + 1
            total_response_time := st.total_response_time + rt
            consecutive_failures := 0
            is_active := true
            last_used := now }
        active := sadd s.active p
        banned := srem s.banned p } := by
  unfold report_success
  rw [hf]
  simp [hb]

/-- `report_success` on an unbanned registered endpoint. -/
theorem report_success_eq_of_not_banned {s : PoolState} {p : String}
    {st : ProxyStats} (rt now : ℚ) (hf : findStats s p = some st)
    (hb : p ∉ s.banned) :
    report_success p rt now s =
      { s with
        stats := setStats s.stats p
          { st with
            success_count := st.success_count + 1
            total_response_time := st.total_response_time + rt
            consecutive_failures := 0
            is_active := true
            last_used := now } } := by
  unfold report_success
  rw [hf]
  simp [hb]

/-- `report_failure` when the consecutive-failure threshold is reached:
the ban branch. -/
theorem report_failure_eq_of_ban {s : PoolState} {p : String} {st : ProxyStats}
    {mf : Nat} (now : ℚ) (hf : findStats s p = some st)
    (hth : mf ≤ st.consecutive_failures + 1) :
    report_failure mf p now s =
      { s with
        stats := setStats s.stats p
          { st with
            failure_count := st.failure_count + 1
            consecutive_failures := st.consecutive_failures + 1
            last_failure := now
            is_active := false }
        active := srem s.active p
        banned := sadd s.banned p } := by
  unfold report_failure
  rw [hf]
  simp [hth]

/-- `report_failure` below the consecutive-failure threshold. -/
theorem report_failure_eq_of_no_ban {s : PoolState} {p : String} {st : ProxyStats}
    {mf : Nat} (now : ℚ) (hf : findStats s p = some st)
    (hth : st.consecutive_failures + 1 < mf) :
    report_failure mf p now s =
      { s with
        stats := setStats s.stats p
          { st with
            failure_count := st.failure_count + 1
            consecutive_failures := st.consecutive_failures + 1
            last_failure := now } } := by
  unfold report_failure
  rw [hf]
  simp [Nat.not_le.mpr hth]

theorem findStats_isSome_append_one (s : PoolState) (n q : String) :
    (findStats { s with
      proxies := s.proxies ++ [n]
      stats := s.stats ++ [(n, ProxyStats.init)]
      active := sadd s.active n } q).isSome
    = ((findStats s q).isSome || decide (q = n)) := by
  rw [findStats_isSome_iff, findStats_isSome_iff]
  show ((s.stats ++ [(n, ProxyStats.init)]).find?
    (fun e => e.1 = q)).isSome = _
  rw [List.find?_append, Option.isSome_or]
  congr 1
  by_cases hqn : q = n
  · subst hqn
    simp [List.find?]
  · simp [List.find?, Ne.symm hqn, hqn]

theorem inv_report_success (p : String) (rt now : ℚ) {s : PoolState}
    (h : Inv s) : Inv (report_success p rt now s) := by
  obtain ⟨h1, h2, h3, h4, h5⟩ := h
  cases hf : findStats s p with
  | none =>
    unfold report_success
    rw [hf]
    exact ⟨h1, h2, h3, h4, h5⟩
  | some st =>
    obtain ⟨e0, he0s, he0p, he0st⟩ := entry_of_findStats hf
    by_cases hb : p ∈ s.banned
    · rw [report_success_eq_of_banned rt now hf hb]
      have hiso : ∀ q : String,
          (findStats { s with
            stats := setStats s.stats p
              { st with
                success_count := st.success_count + 1
                total_response_time := st.total_response_time + rt
                consecutive_failures := 0
                is_active := true
                last_used := now }
            active := sadd s.active p
            banned := srem s.banned p } q).isSome
          = (findStats s q).isSome := by
        intro q
        rw [findStats_isSome_iff, findStats_isSome_iff]
        exact find?_setStats_isSome _ _ _ _
      refine ⟨?_, ?_, ?_, ?_, ?_⟩
      · intro q hq hqb
        rw [mem_srem] at hqb
        rcases mem_sadd.mp hq with hq' | rfl
        · exact h1 q hq' hqb.1
        · exact hqb.2 rfl
      · intro e he
        rcases mem_setStats he with ⟨he1, _⟩ | ⟨hel, hne⟩
        · exact Or.inl (mem_sadd.mpr (Or.inr he1))
        · rcases h2 e hel with ha | hbn
          · exact Or.inl (mem_sadd.mpr (Or.inl ha))
          · exact Or.inr (mem_srem.mpr ⟨hbn, hne⟩)
      · intro q hq
        rw [hiso]
        rcases mem_sadd.mp hq with hq' | rfl
        · exact h3 q hq'
        · rw [findStats_isSome_iff]
          exact find?_isSome_of_findStats hf
      · intro q hq
        rw [hiso]
        exact h4 q (mem_srem.mp hq).1
      · intro e he
        rcases mem_setStats he with ⟨he1, he2⟩ | ⟨hel, hne⟩
        · rw [he2, he1]
          simp [self_not_mem_srem]
        · rw [mem_srem]
          constructor
          · intro hinact
            exact ⟨(h5 e hel).mp hinact, hne⟩
          · intro hmem
            exact (h5 e hel).mpr hmem.1
    · rw [report_success_eq_of_not_banned rt now hf hb]
      have hiso : ∀ q : String,
          (findStats { s with
            stats := setStats s.stats p
              { st with
                success_count := st.success_count + 1
                total_response_time := st.total_response_time + rt
                consecutive_failures := 0
                is_active := true
                last_used := now } } q).isSome
          = (findStats s q).isSome := by
        intro q
        rw [findStats_isSome_iff, findStats_isSome_iff]
        exact find?_setStats_isSome _ _ _ _
      refine ⟨h1, ?_, ?_, ?_, ?_⟩
      · intro e he
        rcases mem_setStats he with ⟨he1, _⟩ | ⟨hel, _⟩
        · rw [he1, ← he0p]
          exact h2 e0 he0s
        · exact h2 e hel
      · intro q hq
        rw [hiso]
        exact h3 q hq
      · intro q hq
        rw [hiso]
        exact h4 q hq
      · intro e he
        rcases mem_setStats he with ⟨he1, he2⟩ | ⟨hel, _⟩
        · rw [he2, he1]
          simp [hb]
        · exact h5 e hel

theorem inv_report_failure (mf : Nat) (p : String) (now : ℚ) {s : PoolState}
    (h : Inv s) : Inv (report_failure mf p now s) := by
  obtain ⟨h1, h2, h3, h4, h5⟩ := h
  cases hf : findStats s p with
  | none =>
    unfold report_failure
    rw [hf]
    exact ⟨h1, h2, h3, h4, h5⟩
  | some st =>
    obtain ⟨e0, he0s, he0p, he0st⟩ := entry_of_findStats hf
    by_cases hth : mf ≤ st.consecutive_failures + 1
    · rw [report_failure_eq_of_ban now hf hth]
      have hiso : ∀ q : String,
          (findStats { s with
            stats := setStats s.stats p
              { st with
                failure_count := st.failure_count + 1
                consecutive_failures := st.consecutive_failures + 1
                last_failure := now
                is_active := false }
            active := srem s.active p
            banned := sadd s.banned p } q).isSome
          = (findStats s q).isSome := by
        intro q
        rw [findStats_isSome_iff, findStats_isSome_iff]
        exact find?_setStats_isSome _ _ _ _
      refine ⟨?_, ?_, ?_, ?_, ?_⟩
      · intro q hq hqb
        obtain ⟨hq', hqp⟩ := mem_srem.mp hq
        rcases mem_sadd.mp hqb with hqb' | rfl
        · exact h1 q hq' hqb'
        · exact hqp rfl
      · intro e he
        rcases mem_setStats he with ⟨he1, _⟩ | ⟨hel, hne⟩
        · exact Or.inr (mem_sadd.mpr (Or.inr he1))
        · rcases h2 e hel with ha | hbn
          · exact Or.inl (mem_srem.mpr ⟨ha, hne⟩)
          · exact Or.inr (mem_sadd.mpr (Or.inl hbn))
      · intro q hq
        rw [hiso]
        exact h3 q (mem_srem.mp hq).1
      · intro q hq
        rw [hiso]
        rcases mem_sadd.mp hq with hq' | rfl
        · exact h4 q hq'
        · rw [findStats_isSome_iff]
          exact find?_isSome_of_findStats hf
      · intro e he
        rcases mem_setStats he with ⟨he1, he2⟩ | ⟨hel, hne⟩
        · rw [he2, he1]
          simp [mem_sadd]
        · rw [mem_sadd]
          constructor
          · intro hinact
            exact Or.inl ((h5 e hel).mp hinact)
          · rintro (hmem | rfl)
            · exact (h5 e hel).mpr hmem
            · exact absurd rfl hne
    · rw [report_failure_eq_of_no_ban now hf (Nat.not_le.mp hth)]
      have hiso : ∀ q : String,
          (findStats { s with
            stats := setStats s.stats p
              { st with
                failure_count := st.failure_count + 1
                consecutive_failures := st.consecutive_failures + 1
                last_failure := now } } q).isSome
          = (findStats s q).isSome := by
        intro q
        rw [findStats_isSome_iff, findStats_isSome_iff]
        exact find?_setStats_isSome _ _ _ _
      refine ⟨h1, ?_, ?_, ?_, ?_⟩
      · intro e he
        rcases mem_setStats he with ⟨he1, _⟩ | ⟨hel, _⟩
        · rw [he1, ← he0p]
          exact h2 e0 he0s
        · exact h2 e hel
      · intro q hq
        rw [hiso]
        exact h3 q hq
      · intro q hq
        rw [hiso]
        exact h4 q hq
      · intro e he
        rcases mem_setStats he with ⟨he1, he2⟩ | ⟨hel, _⟩
        · rw [he2, he1]
          have := h5 e0 he0s
          rw [he0p, he0st] at this
          simpa using this
        · exact h5 e hel

theorem inv_check_proxy_health (mf : Nat) (p : String) (now interval : ℚ)
    (hc : HCOutcome) {s : PoolState} (h : Inv s) :
    Inv (check_proxy_health mf p now interval hc s).2 := by
  unfold check_proxy_health
  cases hf : findStats s p with
  | none => exact h
  | some st =>
    dsimp only
    by_cases hrecent : now - st.last_used < interval
    · rw [if_pos hrecent]
      exact h
    · rw [if_neg hrecent]
      cases hc with
      | ok rt => exact inv_report_success p rt now h
      | badStatus code => exact inv_report_failure mf p now h
      | exc msg => exact inv_report_failure mf p now h

theorem inv_addProxyCore {p n : String} {s s' : PoolState}
    (hadd : addProxyCore p s = some (n, s')) (h : Inv s) : Inv s' := by
  obtain ⟨h1, h2, h3, h4, h5⟩ := h
  unfold addProxyCore at hadd
  by_cases hp : p = ""
  · rw [if_pos hp] at hadd
    exact absurd hadd (by simp)
  · rw [if_neg hp] at hadd
    by_cases hq : pyStrip p = ""
    · rw [if_pos hq] at hadd
      exact absurd hadd (by simp)
    · rw [if_neg hq] at hadd
      dsimp only at hadd
      by_cases hdup : (findStats s (normalizeProxy p)).isSome
      · rw [if_pos hdup] at hadd
        exact absurd hadd (by simp)
      · rw [if_neg hdup] at hadd
        simp only [Option.some_inj, Prod.mk.injEq] at hadd
        obtain ⟨hn, hs'⟩ := hadd
        rw [hn] at hdup hs'
        subst hs'
        have hnb : n ∉ s.banned := by
          intro hmem
          exact hdup ((findStats_isSome_iff s n).symm ▸ h4 n hmem)
        have hfind' := findStats_isSome_append_one s n
        refine ⟨?_, ?_, ?_, ?_, ?_⟩
        · intro q hq hqb
          rcases mem_sadd.mp hq with hq' | rfl
          · exact h1 q hq' hqb
          · exact hnb hqb
        · intro e he
          rcases List.mem_append.mp he with hel | hen
          · rcases h2 e hel with ha | hbn
            · exact Or.inl (mem_sadd.mpr (Or.inl ha))
            · exact Or.inr hbn
          · have : e = (n, ProxyStats.init) := by simpa using hen
            rw [this]
            exact Or.inl (mem_sadd.mpr (Or.inr rfl))
        · intro q hq
          rw [hfind']
          rcases mem_sadd.mp hq with hq' | rfl
          · rw [h3 q hq']
            rfl
          · simp
        · intro q hq
          rw [hfind']
          rw [h4 q hq]
          rfl
        · intro e he
          rcases List.mem_append.mp he with hel | hen
          · exact h5 e hel
          · have : e = (n, ProxyStats.init) := by simpa using hen
            rw [this]
            simpa [ProxyStats.init] using hnb

theorem inv_add_proxy (mf : Nat) (p : String) (now interval : ℚ)
    (hc : HCOutcome) {s : PoolState} (h : Inv s) :
    Inv (add_proxy mf p now interval hc s).2 := by
  unfold add_proxy
  cases hadd : addProxyCore p s with
  | none => exact h
  | some v =>
    obtain ⟨n, s2⟩ := v
    exact inv_check_proxy_health mf n now interval hc (inv_addProxyCore hadd h)

theorem findStats_isSome_filter_ne (s : PoolState) (p q : String) (hqp : q ≠ p)
    (pr a b : List String) :
    (findStats ⟨pr, s.stats.filter (fun e => e.1 ≠ p), a, b⟩ q).isSome
      = (findStats s q).isSome := by
  rw [findStats_isSome_iff, findStats_isSome_iff]
  show ((s.stats.filter (fun e => e.1 ≠ p)).find? (fun e => e.1 = q)).isSome = _
  rw [find?_filter_key_ne hqp]

theorem inv_remove_proxy (p : String) {s : PoolState} (h : Inv s) :
    Inv (remove_proxy p s).2 := by
  obtain ⟨h1, h2, h3, h4, h5⟩ := h
  unfold remove_proxy
  by_cases hf : (findStats s p).isSome
  · rw [if_pos hf]
    have hfind' : ∀ q : String, q ≠ p →
        (findStats ⟨(if p ∈ s.proxies then s.proxies.erase p else s.proxies),
          s.stats.filter (fun e => e.1 ≠ p),
          srem s.active p, srem s.banned p⟩ q).isSome
        = (findStats s q).isSome := fun q hqp =>
      findStats_isSome_filter_ne s p q hqp _ _ _
    refine ⟨?_, ?_, ?_, ?_, ?_⟩
    · intro q hq hqb
      exact h1 q (mem_srem.mp hq).1 (mem_srem.mp hqb).1
    · intro e he
      rw [List.mem_filter] at he
      obtain ⟨hel, hep⟩ := he
      have hep' : e.1 ≠ p := by simpa using hep
      rcases h2 e hel with ha | hbn
      · exact Or.inl (mem_srem.mpr ⟨ha, hep'⟩)
      · exact Or.inr (mem_srem.mpr ⟨hbn, hep'⟩)
    · intro q hq
      obtain ⟨hq', hqp⟩ := mem_srem.mp hq
      rw [hfind' q hqp]
      exact h3 q hq'
    · intro q hq
      obtain ⟨hq', hqp⟩ := mem_srem.mp hq
      rw [hfind' q hqp]
      exact h4 q hq'
    · intro e he
      rw [List.mem_filter] at he
      obtain ⟨hel, hep⟩ := he
      have hep' : e.1 ≠ p := by simpa using hep
      rw [mem_srem]
      constructor
      · intro hinact
        exact ⟨(h5 e hel).mp hinact, hep'⟩
      · intro hmem
        exact (h5 e hel).mpr hmem.1
  · rw [if_neg hf]
    exact ⟨h1, h2, h3, h4, h5⟩

/-- One non-banning `report_failure` step: the stats entry gains one
failure, while the active and banned sets are untouched. -/
theorem report_failure_step {s : PoolState} {p : String} {st : ProxyStats}
    (mf : Nat) (now : ℚ) (hf : findStats s p = some st)
    (hlt : st.consecutive_failures + 1 < mf) :
    findStats (report_failure mf p now s) p = some
      { st with
        failure_count := st.failure_count + 1
        consecutive_failures := st.consecutive_failures + 1
        last_failure := now } ∧
    (report_failure mf p now s).active = s.active ∧
    (report_failure mf p now s).banned = s.banned := by
  rw [report_failure_eq_of_no_ban now hf hlt]
  exact ⟨findStats_of_stats_set rfl hf, rfl, rfl⟩

/-- One banning `report_failure` step: the endpoint moves to the banned
set and out of the active set. -/
theorem report_failure_ban_step {s : PoolState} {p : String} {st : ProxyStats}
    (mf : Nat) (now : ℚ) (hf : findStats s p = some st)
    (hge : mf ≤ st.consecutive_failures + 1) :
    (report_failure mf p now s).banned = sadd s.banned p ∧
    (report_failure mf p now s).active = srem s.active p := by
  rw [report_failure_eq_of_ban now hf hge]
  exact ⟨rfl, rfl⟩

end Pool

/-! ### Claim theorems about the proxy pool -/

namespace Pool

/-- C5: after any sequence of register, deregister, reportSuccess,
reportFailure and health-check operations on a pool state satisfying the
invariant, the active and banned sets stay disjoint, their union stays
exactly the set of endpoints with stats, and an endpoint's `is_active`
flag is false if and only if the endpoint is banned. -/
theorem c5_pool_invariant (mf : Nat) (ops : List PoolOp) {s : PoolState}
    (h : Inv s) : Inv (applyOps mf s ops) := by
  induction ops generalizing s with
  | nil => exact h
  | cons op t ih =>
    have h' : Inv (applyOp mf s op) := by
      cases op with
      | success p rt now => exact inv_report_success p rt now h
      | failure p now => exact inv_report_failure mf p now h
      | register p now interval hc => exact inv_add_proxy mf p now interval hc h
      | deregister p => exact inv_remove_proxy p h
      | healthCheck p now interval hc =>
        exact inv_check_proxy_health mf p now interval hc h
    exact ih h'

theorem c5_pool_invariant_witness :
    Inv (initPool ["http://a:1", "http://b:2"]) ∧
    Inv (applyOps 3 (initPool ["http://a:1", "http://b:2"])
      [.failure "http://a:1" 1, .failure "http://a:1" 2, .failure "http://a:1" 3,
       .success "http://a:1" 1 4, .register "h:9" 1000 300 (.exc "down"),
       .healthCheck "http://b:2" 2000 300 (.badStatus 500),
       .deregister "http://b:2"]) :=
  ⟨by decide, c5_pool_invariant 3 _ (by decide)⟩

/-- C6: with `max_failures = 3`, an endpoint with no consecutive failures
is still active after 2 consecutive `report_failure` calls, banned after
the 3rd, and a further `report_failure` on a banned endpoint keeps it
banned. -/
theorem c6_ban_threshold_exact (s : PoolState) (p : String) (st : ProxyStats)
    (n1 n2 n3 : ℚ) (hf : findStats s p = some st)
    (hcf : st.consecutive_failures = 0) (hact : p ∈ s.active)
    (hban : p ∉ s.banned) :
    (p ∈ (report_failure 3 p n2 (report_failure 3 p n1 s)).active ∧
     p ∉ (report_failure 3 p n2 (report_failure 3 p n1 s)).banned) ∧
    (p ∈ (report_failure 3 p n3
        (report_failure 3 p n2 (report_failure 3 p n1 s))).banned ∧
     p ∉ (report_failure 3 p n3
        (report_failure 3 p n2 (report_failure 3 p n1 s))).active) ∧
    (∀ (s' : PoolState) (now : ℚ), p ∈ s'.banned →
      p ∈ (report_failure 3 p now s').banned) := by
  have s1 := report_failure_step 3 n1 hf
  obtain ⟨hf1, hact1, hban1⟩ := s1 (by omega)
  have s2 := report_failure_step 3 n2 hf1
  obtain ⟨hf2, hact2, hban2⟩ :=
    s2 (show st.consecutive_failures + 1 + 1 < 3 by omega)
  have s3 := report_failure_ban_step 3 n3 hf2
  obtain ⟨hban3, hact3⟩ :=
    s3 (show 3 ≤ st.consecutive_failures + 1 + 1 + 1 by omega)
  refine ⟨⟨?_, ?_⟩, ⟨?_, ?_⟩, ?_⟩
  · rw [hact2, hact1]
    exact hact
  · rw [hban2, hban1]
    exact hban
  · rw [hban3]
    exact mem_sadd.mpr (Or.inr rfl)
  · rw [hact3]
    exact self_not_mem_srem
  · intro s' now hb
    cases hf' : findStats s' p with
    | none =>
      unfold report_failure
      rw [hf']
      exact hb
    | some st' =>
      by_cases hth : 3 ≤ st'.consecutive_failures + 1
      · rw [(report_failure_ban_step 3 now hf' hth).1]
        exact mem_sadd.mpr (Or.inr rfl)
      · rw [(report_failure_step 3 now hf' (by omega)).2.2]
        exact hb

theorem c6_ban_threshold_exact_witness :
    (findStats (initPool ["http://a:1"]) "http://a:1" = some ProxyStats.init ∧
     ProxyStats.init.consecutive_failures = 0 ∧
     "http://a:1" ∈ (initPool ["http://a:1"]).active ∧
     "http://a:1" ∉ (initPool ["http://a:1"]).banned) ∧
    (("http://a:1" ∈ (report_failure 3 "http://a:1" 2
        (report_failure 3 "http://a:1" 1 (initPool ["http://a:1"]))).active ∧
      "http://a:1" ∉ (report_failure 3 "http://a:1" 2
        (report_failure 3 "http://a:1" 1 (initPool ["http://a:1"]))).banned) ∧
     ("http://a:1" ∈ (report_failure 3 "http://a:1" 3
        (report_failure 3 "http://a:1" 2 (report_failure 3 "http://a:1" 1
          (initPool ["http://a:1"])))).banned ∧
      "http://a:1" ∉ (report_failure 3 "http://a:1" 3
        (report_failure 3 "http://a:1" 2 (report_failure 3 "http://a:1" 1
          (initPool ["http://a:1"])))).active) ∧
     (∀ (s' : PoolState) (now : ℚ), "http://a:1" ∈ s'.banned →
       "http://a:1" ∈ (report_failure 3 "http://a:1" now s').banned)) :=
  ⟨⟨by decide, by decide, by decide, by decide⟩,
    c6_ban_threshold_exact (initPool ["http://a:1"]) "http://a:1"
      ProxyStats.init 1 2 3 (by decide) (by decide) (by decide) (by decide)⟩

/-- C7: a single `report_success` on a banned registered endpoint moves it
back to the active set, out of the banned set, keeps the accumulated
failure count, resets consecutive failures to 0 and sets `is_active`. -/
theorem c7_success_unbans (s : PoolState) (p : String) (st : ProxyStats)
    (rt now : ℚ) (hf : findStats s p = some st) (hb : p ∈ s.banned) :
    p ∈ (report_success p rt now s).active ∧
    p ∉ (report_success p rt now s).banned ∧
    findStats (report_success p rt now s) p = some
      { st with
        success_count := st.success_count + 1
        total_response_time := st.total_response_time + rt
        consecutive_failures := 0
        is_active := true
        last_used := now } ∧
    (findStats (report_success p rt now s) p).map ProxyStats.failure_count
      = some st.failure_count := by
  rw [report_success_eq_of_banned rt now hf hb]
  have hfind :
      findStats { s with
        stats := setStats s.stats p
          { st with
            success_count := st.success_count + 1
            total_response_time := st.total_response_time + rt
            consecutive_failures := 0
            is_active := true
            last_used := now }
        active := sadd s.active p
        banned := srem s.banned p } p = some
      { st with
        success_count := st.success_count + 1
        total_response_time := st.total_response_time + rt
        consecutive_failures := 0
        is_active := true
        last_used := now } := findStats_of_stats_set rfl hf
  refine ⟨mem_sadd.mpr (Or.inr rfl), self_not_mem_srem, hfind, ?_⟩
  rw [hfind]
  rfl

theorem c7_success_unbans_witness :
    (findStats bannedPool "http://a:1" = some bannedStats ∧
     "http://a:1" ∈ bannedPool.banned) ∧
    ("http://a:1" ∈ (report_success "http://a:1" 2 50 bannedPool).active ∧
     "http://a:1" ∉ (report_success "http://a:1" 2 50 bannedPool).banned ∧
     findStats (report_success "http://a:1" 2 50 bannedPool) "http://a:1" = some
       { bannedStats with
         success_count := bannedStats.success_count + 1
         total_response_time := bannedStats.total_response_time + 2
         consecutive_failures := 0
         is_active := true
         last_used := 50 } ∧
     (findStats (report_success "http://a:1" 2 50 bannedPool) "http://a:1").map
       ProxyStats.failure_count = some bannedStats.failure_count) :=
  ⟨⟨by decide, by decide⟩,
    c7_success_unbans bannedPool "http://a:1" bannedStats 2 50
      (by decide) (by decide)⟩

/-- C10: reporting success or failure for a proxy URL that has no stats
entry leaves the pool state entirely unchanged. -/
theorem c10_unregistered_report_noop (mf : Nat) (s : PoolState) (p : String)
    (rt now now2 : ℚ) (h : findStats s p = none) :
    report_success p rt now s = s ∧ report_failure mf p now2 s = s := by
  constructor
  · unfold report_success
    rw [h]
  · unfold report_failure
    rw [h]

/-- The foldl computing `sorted(available, key=avg)[0]` returns one of the
candidates. -/
theorem foldl_fastest_mem (s : PoolState) :
    ∀ (l : List String) (p : String),
      l.foldl (fun best q => if avgOf s q < avgOf s best then q else best) p
        ∈ p :: l := by
  intro l
  induction l with
  | nil =>
    intro p
    simp
  | cons r t ih =>
    intro p
    rw [List.foldl_cons]
    rcases List.mem_cons.mp (ih (if avgOf s r < avgOf s p then r else p))
      with h | h
    · by_cases hc : avgOf s r < avgOf s p
      · rw [if_pos hc] at h ⊢
        rw [h]
        exact List.mem_cons_of_mem _ (List.mem_cons_self _ _)
      · rw [if_neg hc] at h ⊢
        rw [h]
        exact List.mem_cons_self _ _
    · exact List.mem_cons_of_mem _ (List.mem_cons_of_mem _ h)

/-- The foldl computing `sorted(available, key=avg)[0]` attains the
minimal average response time among the candidates. -/
theorem foldl_fastest_le (s : PoolState) :
    ∀ (l : List String) (p q : String), q ∈ p :: l →
      avgOf s
        (l.foldl (fun best x => if avgOf s x < avgOf s best then x else best) p)
        ≤ avgOf s q := by
  intro l
  induction l with
  | nil =>
    intro p q hq
    have : q = p := by simpa using hq
    rw [this, List.foldl_nil]
  | cons r t ih =>
    intro p q hq
    rw [List.foldl_cons]
    have hstep := ih (if avgOf s r < avgOf s p then r else p)
    have hle := hstep _ (List.mem_cons_self _ _)
    rcases List.mem_cons.mp hq with rfl | hq'
    · refine le_trans hle ?_
      by_cases hc : avgOf s r < avgOf s q
      · rw [if_pos hc]
        exact le_of_lt hc
      · rw [if_neg hc]
    · rcases List.mem_cons.mp hq' with rfl | hq''
      · refine le_trans hle ?_
        by_cases hc : avgOf s q < avgOf s p
        · rw [if_pos hc]
        · rw [if_neg hc]
          exact le_of_not_lt hc
      · exact hstep _ (List.mem_cons_of_mem _ hq'')

/-- C8: the `fastest` strategy deterministically selects an available
endpoint of minimal average response time
`total_response_time / max(1, success_count)`; on the spec's endpoints A
(avg 2s) and B (avg 1s) it returns B whatever the set iteration order,
and a zero-success endpoint has average 0, tying for fastest. -/
theorem c8_fastest_lowest_average :
    (∀ (s : PoolState) (l : List String) (p : String),
      selectFastest s l = some p → p ∈ l ∧ ∀ q ∈ l, avgOf s p ≤ avgOf s q) ∧
    avgResponseTime ProxyStats.init = 0 ∧
    (∀ st : ProxyStats, 0 ≤ st.total_response_time →
      avgResponseTime ProxyStats.init ≤ avgResponseTime st) ∧
    get_proxy_fastest poolAB = some "B" ∧
    get_proxy_fastest poolBA = some "B" := by
  have hA : avgOf poolAB "A" = 2 := by
    have h1 : findStats poolAB "A" = some statsA := by decide
    unfold avgOf
    rw [h1]
    show (20 : ℚ) / ((max 1 10 : ℕ) : ℚ) = 2
    norm_num
  have hB : avgOf poolAB "B" = 1 := by
    have h1 : findStats poolAB "B" = some statsB := by decide
    unfold avgOf
    rw [h1]
    show (5 : ℚ) / ((max 1 5 : ℕ) : ℚ) = 1
    norm_num
  have hA2 : avgOf poolBA "A" = 2 := by
    have h1 : findStats poolBA "A" = some statsA := by decide
    unfold avgOf
    rw [h1]
    show (20 : ℚ) / ((max 1 10 : ℕ) : ℚ) = 2
    norm_num
  have hB2 : avgOf poolBA "B" = 1 := by
    have h1 : findStats poolBA "B" = some statsB := by decide
    unfold avgOf
    rw [h1]
    show (5 : ℚ) / ((max 1 5 : ℕ) : ℚ) = 1
    norm_num
  have hzero : avgResponseTime ProxyStats.init = 0 := by
    show (0 : ℚ) / ((max 1 0 : ℕ) : ℚ) = 0
    norm_num
  refine ⟨?_, hzero, ?_, ?_, ?_⟩
  · intro s l p hsel
    cases l with
    | nil => simp [selectFastest] at hsel
    | cons x t =>
      unfold selectFastest at hsel
      have hp : t.foldl
          (fun best q => if avgOf s q < avgOf s best then q else best) x = p := by
        simpa using hsel
      rw [← hp]
      exact ⟨foldl_fastest_mem s t x, fun q hq => foldl_fastest_le s t x q hq⟩
  · intro st h
    rw [hzero]
    unfold avgResponseTime
    exact div_nonneg h (by positivity)
  · have havail : availableProxies poolAB = ["A", "B"] := by decide
    unfold get_proxy_fastest
    rw [havail]
    show some (["B"].foldl
      (fun best q => if avgOf poolAB q < avgOf poolAB best then q else best) "A")
      = some "B"
    rw [List.foldl_cons, List.foldl_nil, hA, hB, if_pos (by norm_num)]
  · have havail : availableProxies poolBA = ["B", "A"] := by decide
    unfold get_proxy_fastest
    rw [havail]
    show some (["A"].foldl
      (fun best q => if avgOf poolBA q < avgOf poolBA best then q else best) "B")
      = some "B"
    rw [List.foldl_cons, List.foldl_nil, hA2, hB2, if_neg (by norm_num)]

theorem c8_fastest_lowest_average_witness :
    (selectFastest poolAB ["A"] = some "A") ∧
    ("A" ∈ ["A"] ∧ ∀ q ∈ ["A"], avgOf poolAB "A" ≤ avgOf poolAB q) ∧
    (0 ≤ statsA.total_response_time ∧
      avgResponseTime ProxyStats.init ≤ avgResponseTime statsA) :=
  ⟨rfl, c8_fastest_lowest_average.1 poolAB ["A"] "A" rfl,
    ⟨by norm_num [statsA, ProxyStats.init],
      c8_fastest_lowest_average.2.2.1 statsA
        (by norm_num [statsA, ProxyStats.init])⟩⟩

theorem findStats_isSome_report_success (p : String) (rt now : ℚ)
    (s : PoolState) (q : String) :
    (findStats (report_success p rt now s) q).isSome
      = (findStats s q).isSome := by
  unfold report_success
  cases hf : findStats s p with
  | none => rfl
  | some st =>
    dsimp only
    by_cases hb : p ∈ s.banned
    · rw [if_pos hb, findStats_isSome_iff, findStats_isSome_iff]
      exact find?_setStats_isSome _ _ _ _
    · rw [if_neg hb, findStats_isSome_iff, findStats_isSome_iff]
      exact find?_setStats_isSome _ _ _ _

theorem findStats_isSome_report_failure (mf : Nat) (p : String) (now : ℚ)
    (s : PoolState) (q : String) :
    (findStats (report_failure mf p now s) q).isSome
      = (findStats s q).isSome := by
  unfold report_failure
  cases hf : findStats s p with
  | none => rfl
  | some st =>
    dsimp only
    by_cases hth : st.consecutive_failures + 1 ≥ mf
    · rw [if_pos hth, findStats_isSome_iff, findStats_isSome_iff]
      exact find?_setStats_isSome _ _ _ _
    · rw [if_neg hth, findStats_isSome_iff, findStats_isSome_iff]
      exact find?_setStats_isSome _ _ _ _

theorem findStats_isSome_check_proxy_health (mf : Nat) (p : String)
    (now interval : ℚ) (hc : HCOutcome) (s : PoolState) (q : String) :
    (findStats (check_proxy_health mf p now interval hc s).2 q).isSome
      = (findStats s q).isSome := by
  unfold check_proxy_health
  cases hf : findStats s p with
  | none => rfl
  | some st =>
    dsimp only
    by_cases hrecent : now - st.last_used < interval
    · rw [if_pos hrecent]
    · rw [if_neg hrecent]
      cases hc with
      | ok rt => exact findStats_isSome_report_success p rt now s q
      | badStatus code => exact findStats_isSome_report_failure mf p now s q
      | exc msg => exact findStats_isSome_report_failure mf p now s q

/-- Looking up the endpoint just appended by `addProxyCore` yields the
fresh zeroed stats. -/
theorem findStats_append_self {s : PoolState} {n : String}
    (hnone : findStats s n = none) (pr a b : List String) :
    findStats ⟨pr, s.stats ++ [(n, ProxyStats.init)], a, b⟩ n
      = some ProxyStats.init := by
  have hfind : s.stats.find? (fun e => e.1 = n) = none := by
    unfold findStats at hnone
    exact Option.map_eq_none'.mp hnone
  unfold findStats
  rw [List.find?_append, hfind]
  simp [List.find?]

/-- `add_proxy` returns false and leaves the state alone whenever the
registration step rejects the input. -/
theorem add_proxy_eq_of_core_none {q : String} {t : PoolState} (mf : Nat)
    (now interval : ℚ) (hc : HCOutcome) (hcore : addProxyCore q t = none) :
    add_proxy mf q now interval hc t = (false, t) := by
  unfold add_proxy
  rw [hcore]

/-- `add_proxy` on a genuinely new URL: the normalized endpoint is
registered active with fresh zeroed stats, the initial health check runs
on the post-registration state, and true is returned. -/
theorem add_proxy_new (mf : Nat) (s : PoolState) (p : String)
    (now interval : ℚ) (hc : HCOutcome) (htrim : pyStrip p ≠ "")
    (hnone : findStats s (normalizeProxy p) = none) :
    ∃ s', addProxyCore p s = some (normalizeProxy p, s') ∧
      findStats s' (normalizeProxy p) = some ProxyStats.init ∧
      normalizeProxy p ∈ s'.active ∧
      add_proxy mf p now interval hc s =
        (true, (check_proxy_health mf (normalizeProxy p) now interval hc s').2) := by
  have hp : p ≠ "" := by
    intro hp
    rw [hp] at htrim
    exact htrim rfl
  have hcore : addProxyCore p s = some (normalizeProxy p,
      { s with
        proxies := s.proxies ++ [normalizeProxy p]
        stats := s.stats ++ [(normalizeProxy p, ProxyStats.init)]
        active := sadd s.active (normalizeProxy p) }) := by
    unfold addProxyCore
    rw [if_neg hp, if_neg htrim]
    dsimp only
    rw [hnone]
    rfl
  refine ⟨_, hcore, findStats_append_self hnone _ _ _,
    mem_sadd.mpr (Or.inr rfl), ?_⟩
  unfold add_proxy
  rw [hcore]

/-- C9: `add_proxy` is a no-op returning false on blank input and on a
duplicate of the normalized URL; a scheme-less URL is normalized to
`http://host:port`; a new URL is registered active with fresh zeroed
stats (then handed to the initial health check) with true returned; and
re-adding the normalized URL afterwards returns false and changes
nothing. -/
theorem c9_register (mf : Nat) (s : PoolState) (p : String)
    (now interval now2 interval2 : ℚ) (hc hc2 : HCOutcome) :
    (pyStrip p = "" → add_proxy mf p now interval hc s = (false, s)) ∧
    ((findStats s (normalizeProxy p)).isSome →
      add_proxy mf p now interval hc s = (false, s)) ∧
    (¬ hasScheme (pyStrip p) → normalizeProxy p = "http://" ++ pyStrip p) ∧
    (pyStrip p ≠ "" → findStats s (normalizeProxy p) = none →
      ∃ s', addProxyCore p s = some (normalizeProxy p, s') ∧
        findStats s' (normalizeProxy p) = some ProxyStats.init ∧
        normalizeProxy p ∈ s'.active ∧
        add_proxy mf p now interval hc s =
          (true, (check_proxy_health mf (normalizeProxy p) now interval hc s').2)) ∧
    (normalizeProxy (normalizeProxy p) = normalizeProxy p → pyStrip p ≠ "" →
      findStats s (normalizeProxy p) = none →
      add_proxy mf (normalizeProxy p) now2 interval2 hc2
          ((add_proxy mf p now interval hc s).2)
        = (false, (add_proxy mf p now interval hc s).2)) := by
  refine ⟨?_, ?_, ?_, ?_, ?_⟩
  · intro htrim
    have hcore : addProxyCore p s = none := by
      unfold addProxyCore
      by_cases hp : p = ""
      · rw [if_pos hp]
      · rw [if_neg hp, if_pos htrim]
    unfold add_proxy
    rw [hcore]
  · intro hdup
    have hcore : addProxyCore p s = none := by
      unfold addProxyCore
      by_cases hp : p = ""
      · rw [if_pos hp]
      · rw [if_neg hp]
        by_cases hq : pyStrip p = ""
        · rw [if_pos hq]
        · rw [if_neg hq]
          dsimp only
          rw [if_pos hdup]
    unfold add_proxy
    rw [hcore]
  · intro hns
    unfold normalizeProxy
    rw [if_neg hns]
  · intro htrim hnone
    exact add_proxy_new mf s p now interval hc htrim hnone
  · intro hidem htrim hnone
    obtain ⟨s', hcore, hfresh, _, hadd⟩ :=
      add_proxy_new mf s p now interval hc htrim hnone
    have hsome2 :
        (findStats (add_proxy mf p now interval hc s).2 (normalizeProxy p)).isSome
          = true := by
      rw [hadd]
      dsimp only
      rw [findStats_isSome_check_proxy_health, hfresh]
      rfl
    have hcore2 : addProxyCore (normalizeProxy p)
        (add_proxy mf p now interval hc s).2 = none := by
      unfold addProxyCore
      by_cases hn0 : normalizeProxy p = ""
      · rw [if_pos hn0]
      · rw [if_neg hn0]
        by_cases hnt : pyStrip (normalizeProxy p) = ""
        · rw [if_pos hnt]
        · rw [if_neg hnt]
          dsimp only
          rw [hidem, if_pos hsome2]
    exact add_proxy_eq_of_core_none mf now2 interval2 hc2 hcore2

theorem c9_register_witness :
    (¬ hasScheme (pyStrip "h:8080") ∧ pyStrip "h:8080" ≠ "" ∧
      findStats (initPool ["http://a:1"]) (normalizeProxy "h:8080") = none ∧
      normalizeProxy (normalizeProxy "h:8080") = normalizeProxy "h:8080") ∧
    normalizeProxy "h:8080" = "http://" ++ pyStrip "h:8080" ∧
    (∃ s', addProxyCore "h:8080" (initPool ["http://a:1"])
        = some (normalizeProxy "h:8080", s') ∧
      findStats s' (normalizeProxy "h:8080") = some ProxyStats.init ∧
      normalizeProxy "h:8080" ∈ s'.active ∧
      add_proxy 3 "h:8080" 1000 300 (.exc "down") (initPool ["http://a:1"])
        = (true, (check_proxy_health 3 (normalizeProxy "h:8080") 1000 300
            (.exc "down") s').2)) ∧
    add_proxy 3 (normalizeProxy "h:8080") 2000 300 (.exc "down")
        ((add_proxy 3 "h:8080" 1000 300 (.exc "down")
          (initPool ["http://a:1"])).2)
      = (false, (add_proxy 3 "h:8080" 1000 300 (.exc "down")
          (initPool ["http://a:1"])).2) := by
  have h := c9_register 3 (initPool ["http://a:1"]) "h:8080" 1000 300 2000 300
    (.exc "down") (.exc "down")
  exact ⟨⟨by decide, by decide, by decide, by decide⟩,
    h.2.2.1 (by decide),
    h.2.2.2.1 (by decide) (by decide),
    h.2.2.2.2 (by decide) (by decide) (by decide)⟩

theorem c10_unregistered_report_noop_witness :
    findStats (initPool ["http://a:1"]) "http://zzz:1" = none ∧
    (report_success "http://zzz:1" 1 2 (initPool ["http://a:1"])
        = initPool ["http://a:1"] ∧
     report_failure 3 "http://zzz:1" 2 (initPool ["http://a:1"])
        = initPool ["http://a:1"]) :=
  ⟨by decide,
    c10_unregistered_report_noop 3 (initPool ["http://a:1"]) "http://zzz:1"
      1 2 2 (by decide)⟩

end Pool

/-! ### Claim theorems about the request client -/

namespace Scraper

/-- A safe response outcome never makes `_handle_error` raise. -/
theorem handle_error_ok_of_safe (m attempt w : Nat) (r : HttpResponse)
    (hs : safeOutcome (.resp r) = true) :
    ∃ out, handle_error m (some r) attempt w = .ok out := by
  unfold handle_error
  dsimp only
  by_cases h200 : r.status = 200
  · rw [if_pos h200]
    exact ⟨_, rfl⟩
  · rw [if_neg h200]
    by_cases h4 : r.status = 429 ∨ r.status = 503
    · rw [if_pos h4]
      cases hra : r.retryAfter with
      | none => exact ⟨_, rfl⟩
      | some v =>
        dsimp only
        cases hpv : parseIntOpt v with
        | some n => exact ⟨_, rfl⟩
        | none =>
          exfalso
          unfold safeOutcome at hs
          rcases h4 with h | h <;> simp [h, hra, hpv] at hs
    · rw [if_neg h4]
      by_cases h5 : r.status ≥ 500
      · rw [if_pos h5]
        exact ⟨_, rfl⟩
      · rw [if_neg h5]
        by_cases h34 : r.status = 403 ∨ r.status = 404
        · rw [if_pos h34]
          exact ⟨_, rfl⟩
        · rw [if_neg h34]
          exact ⟨_, rfl⟩

/-- A retryable response outcome always makes `_handle_error` ask for a
retry. -/
theorem handle_error_retry_of_retryable (m attempt w : Nat) (r : HttpResponse)
    (hr : retryableOutcome (.resp r) = true) :
    ∃ msg sleeps, handle_error m (some r) attempt w = .ok (true, msg, sleeps) := by
  unfold retryableOutcome at hr
  rw [Bool.and_eq_true] at hr
  obtain ⟨hst, hra⟩ := hr
  have h4 : r.status = 429 ∨ r.status = 503 := by
    rw [Bool.or_eq_true] at hst
    rcases hst with h | h
    · exact Or.inl (by simpa using h)
    · exact Or.inr (by simpa using h)
  have h200 : ¬ r.status = 200 := by
    rcases h4 with h | h <;> simp [h]
  unfold handle_error
  dsimp only
  rw [if_neg h200, if_pos h4]
  cases hrav : r.retryAfter with
  | none => exact ⟨_, _, rfl⟩
  | some v =>
    rw [hrav] at hra
    dsimp only at hra ⊢
    cases hpv : parseIntOpt v with
    | some n => exact ⟨_, _, rfl⟩
    | none =>
      rw [hpv] at hra
      simp at hra

/-- When every outcome is safe, the retry loop returns `Except.ok`; when
moreover every outcome is retryable, the loop exhausts its budget and
returns `None` having made `maxRetries` attempts. -/
theorem requestLoop_safe_result (maxRetries : Nat) (env : Nat → AttemptOutcome)
    (randW : Nat → Nat) (hsafe : ∀ j, safeOutcome (env j) = true) :
    ∀ (fuel attempt rc : Nat) (trace : List SleepEvent),
      ∃ res, requestLoop maxRetries env randW attempt fuel rc trace = .ok res ∧
        ((∀ j, retryableOutcome (env j) = true) → attempt + fuel = maxRetries →
          res.result = none ∧ res.attempts = maxRetries) := by
  intro fuel
  induction fuel with
  | zero =>
    intro attempt rc trace
    exact ⟨⟨none, attempt, trace, rc⟩, rfl, fun _ hsum => ⟨rfl, by simpa using hsum⟩⟩
  | succ f ih =>
    intro attempt rc trace
    cases henv : env attempt with
    | exc m =>
      simp only [requestLoop]
      rw [henv]
      dsimp only
      by_cases hlast : attempt = maxRetries - 1
      · rw [if_pos hlast]
        refine ⟨_, rfl, fun _ hsum => ⟨rfl, ?_⟩⟩
        show attempt + 1 = maxRetries
        omega
      · rw [if_neg hlast]
        obtain ⟨res, hres, hcond⟩ := ih (attempt + 1)
          (if attempt > 0 ∨ rc > 0 then rc + 1 else rc)
          ((if attempt > 0 ∨ rc > 0 then trace ++ [.throttle] else trace)
            ++ [.backoff (min (2 ^ attempt) 60)])
        exact ⟨res, hres, fun hret hsum => hcond hret (by omega)⟩
    | resp r =>
      have hsr : safeOutcome (.resp r) = true := by
        rw [← henv]
        exact hsafe attempt
      obtain ⟨out, hout⟩ :=
        handle_error_ok_of_safe maxRetries attempt (randW attempt) r hsr
      obtain ⟨sr, msg, sl⟩ := out
      simp only [requestLoop]
      rw [henv]
      dsimp only
      rw [hout]
      dsimp only
      cases sr with
      | true =>
        rw [if_pos rfl]
        obtain ⟨res, hres, hcond⟩ := ih (attempt + 1)
          (if attempt > 0 ∨ rc > 0 then rc + 1 else rc)
          ((if attempt > 0 ∨ rc > 0 then trace ++ [.throttle] else trace) ++ sl)
        exact ⟨res, hres, fun hret hsum => hcond hret (by omega)⟩
      | false =>
        rw [if_neg (by simp)]
        refine ⟨_, rfl, fun hret hsum => ?_⟩
        exfalso
        have hrr : retryableOutcome (.resp r) = true := by
          rw [← henv]
          exact hret attempt
        obtain ⟨msg2, sl2, hout2⟩ :=
          handle_error_retry_of_retryable maxRetries attempt (randW attempt) r hrr
        rw [hout] at hout2
        simp at hout2

/-- C1 (amended): provided no 429/503 attempt carries an unparseable
`Retry-After` header, `request` never raises — it returns `Except.ok`;
and when every attempt is moreover judged retryable (network exception or
parseable rate limit), exhausting the budget returns `None` to the caller
after exactly `maxRetries` attempts. -/
theorem c1_request_no_raise_amended (maxRetries rc0 : Nat)
    (env : Nat → AttemptOutcome) (randW : Nat → Nat)
    (hsafe : ∀ j, safeOutcome (env j) = true) :
    ∃ res, request maxRetries env randW rc0 = .ok res ∧
      ((∀ j, retryableOutcome (env j) = true) →
        res.result = none ∧ res.attempts = maxRetries) := by
  obtain ⟨res, hres, hcond⟩ :=
    requestLoop_safe_result maxRetries env randW hsafe maxRetries 0 rc0 []
  exact ⟨res, hres, fun hret => hcond hret (by omega)⟩

theorem c1_request_no_raise_amended_witness :
    (∀ j : Nat, safeOutcome ((fun _ : Nat => AttemptOutcome.exc "timeout") j)
      = true) ∧
    ∃ res, request 3 (fun _ => AttemptOutcome.exc "timeout") (fun _ => 30) 0
        = .ok res ∧
      ((∀ j : Nat, retryableOutcome
          ((fun _ : Nat => AttemptOutcome.exc "timeout") j) = true) →
        res.result = none ∧ res.attempts = 3) :=
  ⟨fun _ => rfl,
    c1_request_no_raise_amended 3 0 (fun _ => .exc "timeout") (fun _ => 30)
      (fun _ => rfl)⟩

/-- C1 counterexample: the claim "request never raises, and an exhausted
budget without success yields None" is false on the code.  With
`maxRetries = 3` and every attempt answering HTTP 500, all 3 attempts are
made, none succeeds, yet the caller receives the failed 500 response
object rather than `None`; and a 429 response whose `Retry-After` header
is not an integer makes `request` raise a `ValueError`. -/
theorem c1_counterexample :
    (¬ (∀ (maxRetries : Nat) (env : Nat → AttemptOutcome) (randW : Nat → Nat)
        (rc0 : Nat), ∃ res, request maxRetries env randW rc0 = .ok res ∧
        ((∀ i, i < maxRetries → isSuccessOutcome (env i) = false) →
          res.result = none))) ∧
    request 1 (fun _ => .resp ⟨429, some "soon"⟩) (fun _ => 30) 0
      = .error ("invalid literal for int with base 10: " ++ "soon") := by
  constructor
  · intro h
    obtain ⟨res, hres, himp⟩ := h 3 (fun _ => .resp ⟨500, none⟩) (fun _ => 30) 0
    have hcomp : request 3 (fun _ => .resp ⟨500, none⟩) (fun _ => 30) 0
        = .ok ⟨some ⟨500, none⟩, 3, [.throttle, .throttle], 2⟩ := rfl
    rw [hcomp] at hres
    have hr : res = ⟨some ⟨500, none⟩, 3, [.throttle, .throttle], 2⟩ := by
      injection hres with h'
      exact h'.symm
    rw [hr] at himp
    have hno : (⟨some ⟨500, none⟩, 3, [.throttle, .throttle], 2⟩ : ReqResult).result
        = none := himp (fun i _ => rfl)
    simp at hno
  · rfl

/-- C3: a request attempt answered with HTTP 403 or 404 makes the client
return that response at once, with no further attempts, regardless of the
fuel left in the retry budget. -/
theorem c3_abort_on_403_404 (maxRetries : Nat) (env : Nat → AttemptOutcome)
    (randW : Nat → Nat) (attempt fuel rc : Nat) (trace : List SleepEvent)
    (r : HttpResponse) (henv : env attempt = .resp r)
    (hst : r.status = 403 ∨ r.status = 404) (hfuel : 0 < fuel) :
    requestLoop maxRetries env randW attempt fuel rc trace =
      .ok ⟨some r, attempt + 1,
        (if attempt > 0 ∨ rc > 0 then trace ++ [.throttle] else trace),
        (if attempt > 0 ∨ rc > 0 then rc + 1 else rc)⟩ := by
  obtain ⟨f, rfl⟩ : ∃ f, fuel = f + 1 := ⟨fuel - 1, by omega⟩
  have h200 : ¬ r.status = 200 := by
    rcases hst with h | h <;> simp [h]
  have h45 : ¬ (r.status = 429 ∨ r.status = 503) := by
    rcases hst with h | h <;> simp [h]
  have h5 : ¬ r.status ≥ 500 := by
    rcases hst with h | h <;> simp [h]
  have hhe : handle_error maxRetries (some r) attempt (randW attempt)
      = .ok (false, "Access denied or page not found: " ++ toString r.status, []) := by
    unfold handle_error
    dsimp only
    rw [if_neg h200, if_neg h45, if_neg h5, if_pos hst]
  simp only [requestLoop]
  rw [henv]
  dsimp only
  rw [hhe]
  dsimp only
  rw [if_neg (by simp)]
  rw [List.append_nil]

theorem c3_abort_on_403_404_witness :
    requestLoop 3 (fun _ => .resp ⟨404, none⟩) (fun _ => 30) 0 3 0 []
      = .ok ⟨some ⟨404, none⟩, 1, [], 0⟩ := by
  have h := c3_abort_on_403_404 3 (fun _ => .resp ⟨404, none⟩) (fun _ => 30)
    0 3 0 [] ⟨404, none⟩ rfl (Or.inr rfl) (by decide)
  simpa using h

/-- C4: a client with `max_retries = 3` whose every attempt raises a
network exception makes exactly 3 attempts, sleeps
`min(2 ** attempt, 60)` seconds of backoff between consecutive attempts,
and returns `None` without propagating the exception. -/
theorem c4_three_attempts_on_exceptions (msgs : Nat → String)
    (randW : Nat → Nat) (rc0 : Nat) :
    ∃ res, request 3 (fun i => .exc (msgs i)) randW rc0 = .ok res ∧
      res.result = none ∧ res.attempts = 3 ∧
      backoffsOf res.trace = [min (2 ^ 0) 60, min (2 ^ 1) 60] := by
  rcases Nat.eq_zero_or_pos rc0 with rfl | hpos
  · exact ⟨⟨none, 3, [.backoff 1, .throttle, .backoff 2, .throttle], 2⟩,
      rfl, rfl, rfl, rfl⟩
  · refine ⟨⟨none, 3,
      [.throttle, .backoff 1, .throttle, .backoff 2, .throttle], rc0 + 3⟩,
      ?_, rfl, rfl, rfl⟩
    unfold request
    simp only [requestLoop]
    simp [hpos]

end Scraper

namespace Scraper

/-- C2 counterexample: the claim "caller-supplied headers win on
conflicts" is false on the code.  `request` does
`headers = kwargs.pop('headers', {}); headers.update(_get_random_headers())`,
so a caller-supplied `User-Agent` is overwritten by the freshly chosen
one. -/
theorem c2_counterexample :
    ¬ (∀ (caller : HeaderMap) (lang ua k v : String),
        caller k = some v → sentHeaders caller lang ua k = some v) := by
  intro h
  have hcall := h
    (fun k => if k = "User-Agent" then some "caller-agent" else none)
    "en-US,en;q=0.9" "ua-fresh" "User-Agent" "caller-agent" rfl
  have h2 : sentHeaders
      (fun k => if k = "User-Agent" then some "caller-agent" else none)
      "en-US,en;q=0.9" "ua-fresh" "User-Agent" = some "ua-fresh" := rfl
  rw [h2] at hcall
  exact absurd (Option.some_injective _ hcall) (by decide)

/-- C2 (amended): each attempt sends the caller-supplied headers overlaid
by the baseline with the freshly chosen User-Agent and random
Accept-Language, and on any key present in both the freshly generated
value is the one sent (the generated headers win on conflicts); keys the
generated set does not mention fall through to the caller's value. -/
theorem c2_headers_generated_win (caller : HeaderMap) (lang ua : String) :
    sentHeaders caller lang ua "User-Agent" = some ua ∧
    sentHeaders caller lang ua "Accept-Language" = some lang ∧
    get_random_headers lang ua "Accept"
      = some "text/html,application/xhtml+xml,application/xml;q=0.9,image/webp,*/*;q=0.8" ∧
    (∀ k v, get_random_headers lang ua k = some v →
      sentHeaders caller lang ua k = some v) ∧
    (∀ k, get_random_headers lang ua k = none →
      sentHeaders caller lang ua k = caller k) := by
  refine ⟨rfl, rfl, rfl, ?_, ?_⟩
  · intro k v h
    unfold sentHeaders dictUpdate
    rw [h]
  · intro k h
    unfold sentHeaders dictUpdate
    rw [h]

theorem c2_headers_generated_win_witness :
    get_random_headers "L1" "U1" "X-Custom" = none ∧
    sentHeaders (fun _ => some "c") "L1" "U1" "X-Custom"
      = (fun _ => some ("c" : String)) "X-Custom" ∧
    get_random_headers "L1" "U1" "User-Agent" = some "U1" ∧
    sentHeaders (fun _ => some "c") "L1" "U1" "User-Agent" = some "U1" :=
  ⟨rfl,
    (c2_headers_generated_win (fun _ => some "c") "L1" "U1").2.2.2.2
      "X-Custom" rfl,
    rfl,
    (c2_headers_generated_win (fun _ => some "c") "L1" "U1").2.2.2.1
      "User-Agent" "U1" rfl⟩

end Scraper
